import Mathlib

/-!
# JokeGenerator.jsx: a shallow embedding

The component `JokeGenerator` of `src/my-app/src/components/JokeGenerator.jsx`
is embedded as pure functions over an explicit `World`: the five `useState`
cells, plus the parts of the platform the component reads or writes
(`localStorage`, the class list of the document root, the clipboard, the
timer queue, the console and the network).

JavaScript values are embedded as `JSVal`.  IEEE doubles are not modelled:
the number type `ν` is a parameter, together with the two operations the
component applies to a number (`ToBoolean` and `ToString`).
-/

namespace JokeGenerator

/-! ## JavaScript values -/

/-- The two operations on numbers that the component can reach. -/
structure NumSem (ν : Type) where
  /-- Is the number truthy: false for `0`, `-0` and `NaN`. -/
  truthy : ν → Bool
  /-- The result of `Number::toString`. -/
  toStr : ν → String

/-- A JavaScript value as `JSON.parse` can produce it, plus `undefined`. -/
inductive JSVal (ν : Type) where
  | undefined : JSVal ν
  | null : JSVal ν
  | bool (b : Bool) : JSVal ν
  | num (n : ν) : JSVal ν
  | str (s : String) : JSVal ν
  | arr (elems : List (JSVal ν)) : JSVal ν
  | obj (fields : List (String × JSVal ν)) : JSVal ν

/-- A thrown JavaScript exception. -/
structure JSErr where
  name : String
  message : String
deriving DecidableEq, Repr

/-- Own-property lookup in a field list; an absent key reads as `undefined`. -/
def getField {ν : Type} : List (String × JSVal ν) → String → JSVal ν
  | [], _ => .undefined
  | (k, v) :: rest, key => if k = key then v else getField rest key

/-- Own-property test in a field list (the `in` operator on a plain object). -/
def hasField {ν : Type} : List (String × JSVal ν) → String → Bool
  | [], _ => false
  | (k, _) :: rest, key => if k = key then true else hasField rest key

/-- Property read `v.key`.  Reading a property of `undefined` or `null`
throws a `TypeError`.  For an object the own property is returned.  The keys
the component reads (`error`, `type`, `joke`, `id`, `setup`, `delivery`,
`text`) are defined on no prototype, so on a primitive, on an array and on
an object without the key the read yields `undefined`. -/
def getProp {ν : Type} (v : JSVal ν) (key : String) : Except JSErr (JSVal ν) :=
  match v with
  | .undefined => .error ⟨"TypeError", "Cannot read properties of undefined"⟩
  | .null => .error ⟨"TypeError", "Cannot read properties of null"⟩
  | .obj fields => .ok (getField fields key)
  | _ => .ok .undefined

/-- The abstract operation `ToBoolean`. -/
def toBoolean {ν : Type} (sem : NumSem ν) : JSVal ν → Bool
  | .undefined => false
  | .null => false
  | .bool b => b
  | .num n => sem.truthy n
  | .str s => s ≠ ""
  | .arr _ => true
  | .obj _ => true

/-- Strict equality `v === "lit"` against a string literal. -/
def strictEqStr {ν : Type} (v : JSVal ν) (lit : String) : Bool :=
  match v with
  | .str s => s = lit
  | _ => false

/-- Join the already converted elements of an array with `","`. -/
def joinComma : List String → String
  | [] => ""
  | [s] => s
  | s :: rest => s ++ "," ++ joinComma rest

mutual
/-- The abstract operation `ToString`, as a template literal applies it to a
substitution.  A plain object converts through `Object.prototype.toString`
unless it has an own `toString` property; a value parsed from JSON is never
callable, so in that case `OrdinaryToPrimitive` finds no usable method and
throws a `TypeError`.  An array converts through `Array.prototype.join`. -/
def toStr {ν : Type} (sem : NumSem ν) : JSVal ν → Except JSErr String
  | .undefined => .ok "undefined"
  | .null => .ok "null"
  | .bool b => .ok (if b then "true" else "false")
  | .num n => .ok (sem.toStr n)
  | .str s => .ok s
  | .arr elems =>
    match elemsToStr sem elems with
    | .ok parts => .ok (joinComma parts)
    | .error e => .error e
  | .obj fields =>
    if hasField fields "toString" then
      .error ⟨"TypeError", "Cannot convert object to primitive value"⟩
    else .ok "[object Object]"
/-- The element conversions of `Array.prototype.join`: `undefined` and `null`
give the empty string, every other element goes through `ToString`. -/
def elemsToStr {ν : Type} (sem : NumSem ν) : List (JSVal ν) → Except JSErr (List String)
  | [] => .ok []
  | .undefined :: rest =>
    match elemsToStr sem rest with
    | .ok parts => .ok ("" :: parts)
    | .error e => .error e
  | .null :: rest =>
    match elemsToStr sem rest with
    | .ok parts => .ok ("" :: parts)
    | .error e => .error e
  | v :: rest =>
    match toStr sem v with
    | .ok s =>
      match elemsToStr sem rest with
      | .ok parts => .ok (s :: parts)
      | .error e => .error e
    | .error e => .error e
end

/-! ## The platform and the component state -/

/-- The `localStorage` object: a list of key/value pairs, both strings. -/
abbrev Storage := List (String × String)

/-- Named property read `localStorage.key`: `none` stands for `undefined`. -/
def Storage.getItem : Storage → String → Option String
  | [], _ => none
  | (k, v) :: rest, key => if k = key then some v else Storage.getItem rest key

/-- The test `key in localStorage`. -/
def Storage.has (st : Storage) (key : String) : Bool :=
  (Storage.getItem st key).isSome

/-- Named property write `localStorage.key = value`. -/
def Storage.setItem : Storage → String → String → Storage
  | [], key, value => [(key, value)]
  | (k, v) :: rest, key, value =>
    if k = key then (k, value) :: rest else (k, v) :: Storage.setItem rest key value

/-- The method `classList.add(token)`. -/
def classListAdd (classes : List String) (token : String) : List String :=
  if token ∈ classes then classes else classes ++ [token]

/-- The method `classList.remove(token)`. -/
def classListRemove (classes : List String) (token : String) : List String :=
  classes.filter (fun c => c ≠ token)

/-- What the browser offers when `window` is defined: the storage and the
result of `window.matchMedia("(prefers-color-scheme: dark)").matches`. -/
structure Browser where
  localStorage : Storage
  prefersDark : Bool

/-- The component state (the five `useState` cells) and the platform state
the component touches.  A state cell holds the value last handed to its
setter. -/
structure World (ν : Type) where
  /-- The cell `joke`.  Every value the component hands to `setJoke`, and the
  initial value, is an object literal: the cell holds its field list. -/
  joke : List (String × JSVal ν)
  /-- The cell `loading`. -/
  loading : Bool
  /-- The cell `category`. -/
  category : String
  /-- The cell `copied`. -/
  copied : Bool
  /-- The cell `isDarkMode`. -/
  isDarkMode : Bool
  /-- Whether the component is still mounted. -/
  mounted : Bool
  /-- The platform storage `localStorage`. -/
  localStorage : Storage
  /-- The class list `document.documentElement.classList`. -/
  rootClasses : List String
  /-- The arguments of the `navigator.clipboard.writeText` calls, oldest first. -/
  clipboard : List (JSVal ν)
  /-- The current time in milliseconds. -/
  now : Nat
  /-- The due times of the pending `setTimeout` callbacks, in scheduling
  order; the only callback the component schedules is `() => setCopied(false)`. -/
  timers : List Nat
  /-- The URLs of the `fetch` calls, oldest first. -/
  requests : List String
  /-- The errors passed to `console.error`, oldest first. -/
  console : List JSErr

/-- The list `categories`. -/
def categories : List String :=
  ["Any", "Programming", "Misc", "Pun", "Spooky", "Christmas"]

/-- The initial value `{ text: "", id: null }` of the cell `joke`. -/
def initialJoke {ν : Type} : List (String × JSVal ν) :=
  [("text", .str ""), ("id", .null)]

/-- The initializer of the cell `isDarkMode`; `none` is the case
`typeof window === "undefined"`. -/
def initIsDarkMode : Option Browser → Bool
  | some b =>
    (b.localStorage.getItem "theme" == some "dark") ||
      (!(b.localStorage.has "theme") && b.prefersDark)
  | none => false

/-- The body of the effect with dependency `[isDarkMode]`. -/
def themeEffect {ν : Type} (w : World ν) : World ν :=
  if w.isDarkMode then
    { w with rootClasses := classListAdd w.rootClasses "dark"
             localStorage := w.localStorage.setItem "theme" "dark" }
  else
    { w with rootClasses := classListRemove w.rootClasses "dark"
             localStorage := w.localStorage.setItem "theme" "light" }

/-- The handler `toggleDarkMode`: `setIsDarkMode(prev => !prev)`. -/
def toggleDarkMode {ν : Type} (w : World ν) : World ν :=
  { w with isDarkMode := !w.isDarkMode }

/-- A click on the theme button: the handler runs, the flag changes, and the
effect that depends on the flag runs after the render. -/
def clickToggle {ν : Type} (w : World ν) : World ν :=
  themeEffect (toggleDarkMode w)

/-! ## fetchJoke -/

/-- How the two awaited promises of `fetchJoke` settle. -/
inductive FetchOutcome (ν : Type) where
  /-- The promise of `fetch(...)` rejects. -/
  | rejected (e : JSErr) : FetchOutcome ν
  /-- The promise of `response.json()` rejects: the body is not JSON. -/
  | badBody (e : JSErr) : FetchOutcome ν
  /-- The body parses to `data`. -/
  | parsed (data : JSVal ν) : FetchOutcome ν

/-- The text shown when the service reports an error. -/
def apologyText : String := "Oops, something went wrong with the joke API."

/-- The text shown when the request or the parse fails. -/
def retryText : String := "Couldn't fetch a joke. Please try again!"

/-- The URL of the request, a template literal over the cell `category`. -/
def jokeUrl (category : String) : String :=
  "https://v2.jokeapi.dev/joke/" ++ category ++ "?safe-mode"

/-- The `try` block of `fetchJoke` from the first `await` on.  It calls a
setter only as its last step, so when it throws the world is still the one it
started from. -/
def fetchJokeTry {ν : Type} (sem : NumSem ν) (w : World ν) :
    FetchOutcome ν → Except JSErr (World ν)
  | .rejected e => .error e
  | .badBody e => .error e
  | .parsed data => do
    let error ← getProp data "error"
    if toBoolean sem error then
      pure { w with joke := [("text", .str apologyText)] }
    else
      let type ← getProp data "type"
      if strictEqStr type "single" then
        let joke ← getProp data "joke"
        let id ← getProp data "id"
        pure { w with joke := [("text", joke), ("id", id)] }
      else
        let setup ← getProp data "setup"
        let setupStr ← toStr sem setup
        let delivery ← getProp data "delivery"
        let deliveryStr ← toStr sem delivery
        let id ← getProp data "id"
        pure { w with joke := [("text", .str (setupStr ++ "\n\n" ++ deliveryStr)),
                              ("id", id)] }

/-- The `catch` block of `fetchJoke`. -/
def fetchJokeCatch {ν : Type} (w : World ν) (error : JSErr) : World ν :=
  { w with console := w.console ++ [error]
           joke := [("text", .str retryText)] }

/-- The `finally` block of `fetchJoke`. -/
def fetchJokeFinally {ν : Type} (w : World ν) : World ν :=
  { w with loading := false }

/-- The part of `fetchJoke` that runs before the first `await`. -/
def fetchJokeBegin {ν : Type} (w : World ν) : World ν :=
  { w with loading := true
           copied := false
           requests := w.requests ++ [jokeUrl w.category] }

/-- The part of `fetchJoke` that runs once the awaited promises have settled,
from the world `w` of that moment: `try`, `catch`, `finally`.  The result is
`.error` when the promise that `fetchJoke` returns rejects. -/
def fetchJokeSettle {ν : Type} (sem : NumSem ν) (w : World ν) (o : FetchOutcome ν) :
    Except JSErr (World ν) :=
  match fetchJokeTry sem w o with
  | .ok w1 => .ok (fetchJokeFinally w1)
  | .error e => .ok (fetchJokeFinally (fetchJokeCatch w e))

/-- One run of `fetchJoke` with nothing interleaved at the `await`s. -/
def fetchJoke {ν : Type} (sem : NumSem ν) (w : World ν) (o : FetchOutcome ν) :
    Except JSErr (World ν) :=
  fetchJokeSettle sem (fetchJokeBegin w) o

/-! ## handleCopy and the timer queue -/

/-- The callback `() => setCopied(false)` of the timer. -/
def copiedTimeout {ν : Type} (w : World ν) : World ν :=
  { w with copied := false }

/-- The call `setTimeout(callback, delay)`: the due time joins the queue. -/
def setTimeout {ν : Type} (w : World ν) (delay : Nat) : World ν :=
  { w with timers := w.timers ++ [w.now + delay] }

/-- The handler `handleCopy`, in a browser that offers `navigator.clipboard`. -/
def handleCopy {ν : Type} (sem : NumSem ν) (w : World ν) : World ν :=
  let text := getField w.joke "text"
  if toBoolean sem text then
    let w1 := { w with clipboard := w.clipboard ++ [text] }
    let w2 := { w1 with copied := true }
    setTimeout w2 2000
  else
    w

/-- Let `dt` milliseconds pass with no other event: every timer that is due
by then fires, in queue order, and leaves the queue. -/
def advance {ν : Type} (dt : Nat) (w : World ν) : World ν :=
  let target := w.now + dt
  let due := w.timers.filter (fun t => decide (t ≤ target))
  let rest := w.timers.filter (fun t => !decide (t ≤ target))
  due.foldl (fun acc _ => copiedTimeout acc) { w with now := target, timers := rest }

/-- The teardown of the component.  Neither effect returns a cleanup function
and no handler is registered for teardown, so unmounting runs no code of the
component. -/
def unmount {ν : Type} (w : World ν) : World ν :=
  { w with mounted := false }

/-! ## Sample inputs -/

/-- A number model over the integers, for evaluating the definitions. -/
def intSem : NumSem Int where
  truthy := fun n => n != 0
  toStr := fun n => toString n

/-- A freshly mounted component in light mode. -/
def sampleWorld : World Int where
  joke := initialJoke
  loading := false
  category := "Any"
  copied := false
  isDarkMode := false
  mounted := true
  localStorage := [("theme", "light")]
  rootClasses := []
  clipboard := []
  now := 0
  timers := []
  requests := []
  console := []

/-- A response body of type `single`. -/
def sampleSingle : List (String × JSVal Int) :=
  [("error", .bool false), ("category", .str "Pun"), ("type", .str "single"),
   ("joke", .str "  I used to be a banker,\nbut I lost interest. "), ("id", .num 42)]

/-- A response body of type `twopart`. -/
def sampleTwopart : List (String × JSVal Int) :=
  [("error", .bool false), ("type", .str "twopart"),
   ("setup", .str "Why?\n"), ("delivery", .str ""), ("id", .num 7)]

/-- A response body that reports an error yet carries a whole joke. -/
def sampleError : List (String × JSVal Int) :=
  [("error", .bool true), ("type", .str "single"),
   ("joke", .str "ignored"), ("id", .num 9)]

/-- The sample component once a joke is on display. -/
def jokeWorld : World Int :=
  { sampleWorld with joke := [("text", .str "Knock knock."), ("id", .num 3)] }

/-- The sample component 1000 ms after a call of `handleCopy`: the joke is
still on display and the timer of that call is pending. -/
def laterWorld : World Int :=
  advance 1000 (handleCopy intSem jokeWorld)

/-! ## Derived notions used in the statements -/

/-- The joke cell after a run of `fetchJoke`. -/
def jokeAfter {ν : Type} (r : Except JSErr (World ν)) : Except JSErr (List (String × JSVal ν)) :=
  r.map (fun w => w.joke)

/-- The postcondition of the theme effect: the `dark` class of the document
root and the stored theme agree with the flag `isDarkMode`. -/
def ThemeSynced {ν : Type} (w : World ν) : Prop :=
  ("dark" ∈ w.rootClasses ↔ w.isDarkMode = true) ∧
  w.localStorage.getItem "theme" = some (if w.isDarkMode then "dark" else "light")

/-- Two calls of `handleCopy`, the second `t` milliseconds after the first,
with no other event in between. -/
def copyTwice {ν : Type} (sem : NumSem ν) (t : Nat) (w : World ν) : World ν :=
  handleCopy sem (advance t (handleCopy sem w))

/-! ## Facts about the timer queue -/

theorem foldl_copiedTimeout {ν : Type} (l : List Nat) (w : World ν) :
    l.foldl (fun acc _ => copiedTimeout acc) w = if l = [] then w else copiedTimeout w := by
  induction l generalizing w with
  | nil => simp
  | cons a l ih =>
    simp only [List.foldl_cons, ih]
    by_cases h : l = [] <;> simp [h, copiedTimeout]

theorem advance_now {ν : Type} (dt : Nat) (w : World ν) :
    (advance dt w).now = w.now + dt := by
  simp only [advance, foldl_copiedTimeout]
  split <;> rfl

theorem advance_timers {ν : Type} (dt : Nat) (w : World ν) :
    (advance dt w).timers = w.timers.filter (fun t => !decide (t ≤ w.now + dt)) := by
  simp only [advance, foldl_copiedTimeout]
  split <;> rfl

theorem advance_joke {ν : Type} (dt : Nat) (w : World ν) :
    (advance dt w).joke = w.joke := by
  simp only [advance, foldl_copiedTimeout]
  split <;> rfl

theorem advance_mounted {ν : Type} (dt : Nat) (w : World ν) :
    (advance dt w).mounted = w.mounted := by
  simp only [advance, foldl_copiedTimeout]
  split <;> rfl

/-- While no pending timer is due, the flag `copied` keeps its value. -/
theorem advance_copied_of_none_due {ν : Type} (dt : Nat) (w : World ν)
    (h : ∀ d ∈ w.timers, w.now + dt < d) : (advance dt w).copied = w.copied := by
  have hnil : w.timers.filter (fun t => decide (t ≤ w.now + dt)) = [] := by
    rw [List.filter_eq_nil_iff]
    intro d hd
    have := h d hd
    simp only [decide_eq_true_eq]
    omega
  simp only [advance, foldl_copiedTimeout, hnil, if_true]

/-- Once a pending timer is due, the flag `copied` is false. -/
theorem advance_copied_of_due {ν : Type} (dt : Nat) (w : World ν) (d : Nat)
    (hd : d ∈ w.timers) (hle : d ≤ w.now + dt) : (advance dt w).copied = false := by
  have hne : w.timers.filter (fun t => decide (t ≤ w.now + dt)) ≠ [] := by
    intro hnil
    rw [List.filter_eq_nil_iff] at hnil
    exact hnil d hd (by simpa using hle)
  simp only [advance, foldl_copiedTimeout, if_neg hne]
  rfl

/-- The world after `handleCopy` when the joke text is a non-empty string. -/
theorem handleCopy_of_text {ν : Type} (sem : NumSem ν) (w : World ν) (s : String)
    (hs : getField w.joke "text" = .str s) (hne : s ≠ "") :
    handleCopy sem w =
      { w with clipboard := w.clipboard ++ [.str s]
               copied := true
               timers := w.timers ++ [w.now + 2000] } := by
  simp [handleCopy, hs, toBoolean, hne, setTimeout]

/-- With no pending timer due, letting time pass only moves the clock. -/
theorem advance_of_none_due {ν : Type} (dt : Nat) (w : World ν)
    (h : ∀ d ∈ w.timers, w.now + dt < d) : advance dt w = { w with now := w.now + dt } := by
  have hnil : w.timers.filter (fun t => decide (t ≤ w.now + dt)) = [] := by
    rw [List.filter_eq_nil_iff]
    intro d hd
    have := h d hd
    simp only [decide_eq_true_eq]
    omega
  have hall : w.timers.filter (fun t => !decide (t ≤ w.now + dt)) = w.timers := by
    rw [List.filter_eq_self]
    intro d hd
    have := h d hd
    simp only [Bool.not_eq_true', decide_eq_false_iff_not]
    omega
  simp only [advance, foldl_copiedTimeout, hnil, hall, if_true]

/-- Teardown and the passing of time commute: a timer fires after teardown
exactly as it would have fired without it. -/
theorem advance_unmount {ν : Type} (dt : Nat) (w : World ν) :
    advance dt (unmount w) = unmount (advance dt w) := by
  simp only [advance, foldl_copiedTimeout, unmount]
  split <;> rfl

/-! ## Facts about the theme marker and the storage -/

theorem mem_classListAdd (classes : List String) (token : String) :
    token ∈ classListAdd classes token := by
  unfold classListAdd
  split
  · assumption
  · simp

theorem not_mem_classListRemove (classes : List String) (token : String) :
    token ∉ classListRemove classes token := by
  simp [classListRemove]

theorem getItem_setItem (st : Storage) (key value : String) :
    Storage.getItem (Storage.setItem st key value) key = some value := by
  induction st with
  | nil => simp [Storage.setItem, Storage.getItem]
  | cons kv rest ih =>
    obtain ⟨k, v⟩ := kv
    by_cases h : k = key
    · simp [Storage.setItem, Storage.getItem, h]
    · simp [Storage.setItem, Storage.getItem, h, ih]

/-- The theme effect establishes `ThemeSynced`, from any world. -/
theorem themeEffect_synced {ν : Type} (w : World ν) : ThemeSynced (themeEffect w) := by
  unfold ThemeSynced themeEffect
  cases hd : w.isDarkMode
  · simp [hd, not_mem_classListRemove, getItem_setItem]
  · simp [hd, mem_classListAdd, getItem_setItem]

/-! ## fetchJoke: the three response branches and the failure path -/

/-- C1: a parsed response whose `error` field is falsy and whose `type` is
`"single"` makes `fetchJoke` set the joke to `{ text: data.joke, id: data.id }`,
the `joke` field being stored as it is. -/
theorem fetchJoke_single {ν : Type} (sem : NumSem ν) (w : World ν)
    (fields : List (String × JSVal ν))
    (herr : toBoolean sem (getField fields "error") = false)
    (hty : getField fields "type" = .str "single") :
    jokeAfter (fetchJoke sem w (.parsed (.obj fields)))
      = .ok [("text", getField fields "joke"), ("id", getField fields "id")] := by
  simp [jokeAfter, fetchJoke, fetchJokeSettle, fetchJokeTry, getProp, herr, hty, strictEqStr,
    fetchJokeFinally, Except.map, bind, Except.bind, pure, Except.pure]

theorem fetchJoke_single_witness :
    toBoolean intSem (getField sampleSingle "error") = false ∧
    getField sampleSingle "type" = .str "single" ∧
    jokeAfter (fetchJoke intSem sampleWorld (.parsed (.obj sampleSingle)))
      = .ok [("text", .str "  I used to be a banker,\nbut I lost interest. "),
             ("id", .num 42)] :=
  ⟨rfl, rfl, fetchJoke_single intSem sampleWorld sampleSingle rfl rfl⟩

/-- C2: a parsed response whose `error` field is falsy and whose `type` is
`"twopart"` makes `fetchJoke` set the joke text to the setup, two newline
characters and the delivery, and the joke id to the response id, for all
strings `setup` and `delivery`. -/
theorem fetchJoke_twopart {ν : Type} (sem : NumSem ν) (w : World ν)
    (fields : List (String × JSVal ν)) (setup delivery : String)
    (herr : toBoolean sem (getField fields "error") = false)
    (hty : getField fields "type" = .str "twopart")
    (hsetup : getField fields "setup" = .str setup)
    (hdelivery : getField fields "delivery" = .str delivery) :
    jokeAfter (fetchJoke sem w (.parsed (.obj fields)))
      = .ok [("text", .str (setup ++ "\n\n" ++ delivery)), ("id", getField fields "id")] := by
  simp [jokeAfter, fetchJoke, fetchJokeSettle, fetchJokeTry, getProp, herr, hty, hsetup,
    hdelivery, strictEqStr, toStr, fetchJokeFinally, Except.map, bind, Except.bind, pure,
    Except.pure]

theorem fetchJoke_twopart_witness :
    toBoolean intSem (getField sampleTwopart "error") = false ∧
    getField sampleTwopart "type" = .str "twopart" ∧
    getField sampleTwopart "setup" = .str "Why?\n" ∧
    getField sampleTwopart "delivery" = .str "" ∧
    jokeAfter (fetchJoke intSem sampleWorld (.parsed (.obj sampleTwopart)))
      = .ok [("text", .str ("Why?\n" ++ "\n\n" ++ "")), ("id", .num 7)] :=
  ⟨rfl, rfl, rfl, rfl, fetchJoke_twopart intSem sampleWorld sampleTwopart "Why?\n" "" rfl rfl rfl rfl⟩

/-- C3: a parsed response whose `error` field is truthy, in particular
`true`, makes `fetchJoke` set the joke to an object whose only property is
`text`, the fixed apology string, whatever the other fields of the response
and the previous joke are: the new joke has no `id` property, and `joke.id`
reads as `undefined`. -/
theorem fetchJoke_error {ν : Type} (sem : NumSem ν) (w : World ν)
    (fields : List (String × JSVal ν))
    (herr : toBoolean sem (getField fields "error") = true) :
    ∃ w1, fetchJoke sem w (.parsed (.obj fields)) = .ok w1 ∧
      w1.joke = [("text", .str "Oops, something went wrong with the joke API.")] ∧
      hasField w1.joke "id" = false ∧
      getProp (.obj w1.joke) "id" = .ok .undefined := by
  have h : fetchJoke sem w (.parsed (.obj fields))
      = .ok (fetchJokeFinally { fetchJokeBegin w with joke := [("text", .str apologyText)] }) := by
    simp [fetchJoke, fetchJokeSettle, fetchJokeTry, getProp, bind, Except.bind, herr, pure,
      Except.pure]
  exact ⟨_, h, rfl, rfl, rfl⟩

theorem fetchJoke_error_witness :
    toBoolean intSem (getField sampleError "error") = true ∧
    ∃ w1, fetchJoke intSem sampleWorld (.parsed (.obj sampleError)) = .ok w1 ∧
      w1.joke = [("text", .str "Oops, something went wrong with the joke API.")] ∧
      hasField w1.joke "id" = false ∧
      getProp (.obj w1.joke) "id" = .ok .undefined :=
  ⟨rfl, fetchJoke_error intSem sampleWorld sampleError rfl⟩

/-- C4: when the request is rejected or the body fails to parse, the run of
`fetchJoke` completes without throwing, the joke text is the fixed retry
prompt, the error has been logged and `loading` is false; and every run,
whatever the outcome of the request, completes without throwing and with
`loading` false. -/
theorem fetchJoke_failure {ν : Type} (sem : NumSem ν) (w : World ν) :
    (∀ e, ∃ w1, fetchJoke sem w (.rejected e) = .ok w1 ∧
      w1.joke = [("text", .str "Couldn't fetch a joke. Please try again!")] ∧
      w1.console = w.console ++ [e] ∧ w1.loading = false) ∧
    (∀ e, ∃ w1, fetchJoke sem w (.badBody e) = .ok w1 ∧
      w1.joke = [("text", .str "Couldn't fetch a joke. Please try again!")] ∧
      w1.console = w.console ++ [e] ∧ w1.loading = false) ∧
    (∀ o, ∃ w1, fetchJoke sem w o = .ok w1 ∧ w1.loading = false) := by
  refine ⟨fun e => ⟨_, rfl, rfl, rfl, rfl⟩, fun e => ⟨_, rfl, rfl, rfl, rfl⟩, fun o => ?_⟩
  unfold fetchJoke fetchJokeSettle
  cases fetchJokeTry sem (fetchJokeBegin w) o with
  | ok w1 => exact ⟨_, rfl, rfl⟩
  | error e => exact ⟨_, rfl, rfl⟩

/-! ## handleCopy -/

/-- C5: when the joke text is the empty string, `handleCopy` changes nothing:
no clipboard write, the flag `copied` as it was, no timer, every other field
of the world as it was. -/
theorem handleCopy_empty {ν : Type} (sem : NumSem ν) (w : World ν)
    (hs : getField w.joke "text" = .str "") : handleCopy sem w = w := by
  simp [handleCopy, hs, toBoolean]

theorem handleCopy_empty_witness :
    getField sampleWorld.joke "text" = .str "" ∧ handleCopy intSem sampleWorld = sampleWorld :=
  ⟨rfl, handleCopy_empty intSem sampleWorld rfl⟩

/-- C6, refuted as stated: the component 1000 ms after an earlier copy, the
joke text non-empty and the timer of the earlier copy pending.  One call of
`handleCopy` there sets `copied` to true, and with no other event `copied` is
false only 1000 ms later, when the earlier timer fires. -/
theorem handleCopy_earlier_timer_resets :
    getField laterWorld.joke "text" = .str "Knock knock." ∧
    laterWorld.now = 1000 ∧ laterWorld.timers = [2000] ∧
    (handleCopy intSem laterWorld).copied = true ∧
    (handleCopy intSem laterWorld).timers = [2000, 3000] ∧
    (advance 999 (handleCopy intSem laterWorld)).copied = true ∧
    (advance 1000 (handleCopy intSem laterWorld)).copied = false := by
  refine ⟨rfl, rfl, rfl, rfl, rfl, rfl, rfl⟩

/-- C6, amended: when the joke text is a non-empty string, one call of
`handleCopy` writes exactly the joke text to the clipboard and sets `copied`
to true at once.  With no other event, at a moment before 2000 ms have passed
`copied` is true exactly when no timer that was pending at the call has
fallen due; so it is true throughout when none of them falls due within the
2000 ms.  From the moment the timer of the call fires at 2000 ms, `copied`
is false. -/
theorem handleCopy_window {ν : Type} (sem : NumSem ν) (w : World ν) (s : String)
    (hs : getField w.joke "text" = .str s) (hne : s ≠ "") :
    (handleCopy sem w).clipboard = w.clipboard ++ [.str s] ∧
    (handleCopy sem w).copied = true ∧
    (handleCopy sem w).timers = w.timers ++ [w.now + 2000] ∧
    (∀ dt, dt < 2000 →
      ((advance dt (handleCopy sem w)).copied = true ↔ ∀ d ∈ w.timers, w.now + dt < d)) ∧
    ((∀ d ∈ w.timers, w.now + 2000 ≤ d) →
      ∀ dt, dt < 2000 → (advance dt (handleCopy sem w)).copied = true) ∧
    (∀ dt, 2000 ≤ dt → (advance dt (handleCopy sem w)).copied = false) := by
  rw [handleCopy_of_text sem w s hs hne]
  have hkeep : ∀ dt, dt < 2000 → (∀ d ∈ w.timers, w.now + dt < d) →
      (advance dt { w with clipboard := w.clipboard ++ [.str s]
                           copied := true
                           timers := w.timers ++ [w.now + 2000] }).copied = true := by
    intro dt hdt hfree
    rw [advance_copied_of_none_due]
    intro d hd
    simp only [List.mem_append, List.mem_singleton] at hd
    rcases hd with hd | hd
    · exact hfree d hd
    · simp only
      omega
  refine ⟨rfl, rfl, rfl, fun dt hdt => ⟨fun hc => ?_, hkeep dt hdt⟩, fun hquiet dt hdt => ?_,
    fun dt hdt => ?_⟩
  · intro d hd
    by_contra hle
    have hfalse := advance_copied_of_due dt
      { w with clipboard := w.clipboard ++ [.str s]
               copied := true
               timers := w.timers ++ [w.now + 2000] } d
      (by simp [hd]) (by simp only; omega)
    rw [hfalse] at hc
    exact Bool.noConfusion hc
  · apply hkeep dt hdt
    intro d hd
    have := hquiet d hd
    omega
  · apply advance_copied_of_due dt _ (w.now + 2000)
    · simp
    · simp only
      omega

theorem handleCopy_window_witness :
    getField laterWorld.joke "text" = .str "Knock knock." ∧ "Knock knock." ≠ "" ∧
    (handleCopy intSem laterWorld).clipboard = laterWorld.clipboard ++ [.str "Knock knock."] ∧
    (handleCopy intSem laterWorld).copied = true ∧
    (handleCopy intSem laterWorld).timers = laterWorld.timers ++ [laterWorld.now + 2000] ∧
    (∀ dt, dt < 2000 →
      ((advance dt (handleCopy intSem laterWorld)).copied = true
        ↔ ∀ d ∈ laterWorld.timers, laterWorld.now + dt < d)) ∧
    ((∀ d ∈ laterWorld.timers, laterWorld.now + 2000 ≤ d) →
      ∀ dt, dt < 2000 → (advance dt (handleCopy intSem laterWorld)).copied = true) ∧
    (∀ dt, 2000 ≤ dt → (advance dt (handleCopy intSem laterWorld)).copied = false) :=
  ⟨rfl, by decide, handleCopy_window intSem laterWorld "Knock knock." rfl (by decide)⟩

/-- C7, refuted as stated: `handleCopy` at time 0 and again at time 1000 on a
non-empty joke.  At time 2000, before the second window of 2000 ms is over,
the timer of the first call fires and `copied` is false, while the timer of
the second call is still pending. -/
theorem copyTwice_first_timer_resets :
    getField jokeWorld.joke "text" = .str "Knock knock." ∧
    jokeWorld.now = 0 ∧ jokeWorld.timers = [] ∧
    (copyTwice intSem 1000 jokeWorld).now = 1000 ∧
    (copyTwice intSem 1000 jokeWorld).copied = true ∧
    (copyTwice intSem 1000 jokeWorld).timers = [2000, 3000] ∧
    (advance 1000 (copyTwice intSem 1000 jokeWorld)).now = 2000 ∧
    (advance 1000 (copyTwice intSem 1000 jokeWorld)).copied = false ∧
    (advance 1000 (copyTwice intSem 1000 jokeWorld)).timers = [3000] := by
  refine ⟨rfl, rfl, rfl, rfl, rfl, rfl, rfl, rfl, rfl⟩

/-- C7, amended: each call of `handleCopy` schedules a timer of its own and
none is cancelled.  After a call at time 0 and a second call at time `t`,
`0 < t < 2000`, on a non-empty joke and with no other timer due before time
2000, both timers are pending, `copied` is true from the second call until
time 2000, and false from time 2000 on, when the timer of the first call
fires. -/
theorem copyTwice_window {ν : Type} (sem : NumSem ν) (w : World ν) (s : String) (t : Nat)
    (hs : getField w.joke "text" = .str s) (hne : s ≠ "")
    (hquiet : ∀ d ∈ w.timers, w.now + 2000 ≤ d) (ht0 : 0 < t) (ht : t < 2000) :
    (copyTwice sem t w).now = w.now + t ∧
    (copyTwice sem t w).timers = w.timers ++ [w.now + 2000, w.now + t + 2000] ∧
    (copyTwice sem t w).copied = true ∧
    (∀ dt, dt < 2000 - t → (advance dt (copyTwice sem t w)).copied = true) ∧
    (∀ dt, 2000 - t ≤ dt → (advance dt (copyTwice sem t w)).copied = false) := by
  have h1 : advance t (handleCopy sem w) =
      { w with clipboard := w.clipboard ++ [.str s]
               copied := true
               timers := w.timers ++ [w.now + 2000]
               now := w.now + t } := by
    rw [handleCopy_of_text sem w s hs hne, advance_of_none_due]
    intro d hd
    simp only [List.mem_append, List.mem_singleton] at hd
    rcases hd with hd | hd
    · have := hquiet d hd
      simp only
      omega
    · simp only
      omega
  have h2 : copyTwice sem t w =
      { w with clipboard := w.clipboard ++ [.str s] ++ [.str s]
               copied := true
               timers := w.timers ++ [w.now + 2000] ++ [w.now + t + 2000]
               now := w.now + t } := by
    unfold copyTwice
    rw [h1, handleCopy_of_text sem _ s (by exact hs) hne]
  rw [h2]
  refine ⟨rfl, by simp, rfl, fun dt hdt => ?_, fun dt hdt => ?_⟩
  · rw [advance_copied_of_none_due]
    intro d hd
    simp only [List.mem_append, List.mem_singleton] at hd
    rcases hd with (hd | hd) | hd
    · have := hquiet d hd
      simp only
      omega
    · simp only
      omega
    · simp only
      omega
  · apply advance_copied_of_due dt _ (w.now + 2000)
    · simp
    · simp only
      omega

theorem copyTwice_window_witness :
    getField jokeWorld.joke "text" = .str "Knock knock." ∧ "Knock knock." ≠ "" ∧
    (∀ d ∈ jokeWorld.timers, jokeWorld.now + 2000 ≤ d) ∧ 0 < 1000 ∧ 1000 < 2000 ∧
    (copyTwice intSem 1000 jokeWorld).now = jokeWorld.now + 1000 ∧
    (copyTwice intSem 1000 jokeWorld).timers
      = jokeWorld.timers ++ [jokeWorld.now + 2000, jokeWorld.now + 1000 + 2000] ∧
    (copyTwice intSem 1000 jokeWorld).copied = true ∧
    (∀ dt, dt < 2000 - 1000 → (advance dt (copyTwice intSem 1000 jokeWorld)).copied = true) ∧
    (∀ dt, 2000 - 1000 ≤ dt → (advance dt (copyTwice intSem 1000 jokeWorld)).copied = false) :=
  ⟨rfl, by decide, by simp [jokeWorld, sampleWorld], by decide, by decide,
    copyTwice_window intSem jokeWorld "Knock knock." 1000 rfl (by decide)
      (by simp [jokeWorld, sampleWorld]) (by decide) (by decide)⟩

/-! ## The theme -/

/-- C8: from a world in which the theme effect has run (the `dark` class
and the stored theme agree with the flag), two clicks on the theme button,
the effect running after each, give back the flag, the presence of the
`dark` class on the document root and the stored theme. -/
theorem clickToggle_twice {ν : Type} (w : World ν) (h : ThemeSynced w) :
    (clickToggle (clickToggle w)).isDarkMode = w.isDarkMode ∧
    ("dark" ∈ (clickToggle (clickToggle w)).rootClasses ↔ "dark" ∈ w.rootClasses) ∧
    (clickToggle (clickToggle w)).localStorage.getItem "theme"
      = w.localStorage.getItem "theme" := by
  obtain ⟨hcls, hst⟩ := h
  have hflag : (clickToggle (clickToggle w)).isDarkMode = w.isDarkMode := by
    cases hd : w.isDarkMode <;> simp [clickToggle, themeEffect, toggleDarkMode, hd]
  obtain ⟨hcls2, hst2⟩ := themeEffect_synced (toggleDarkMode (clickToggle w))
  change ("dark" ∈ (clickToggle (clickToggle w)).rootClasses ↔ _) at hcls2
  change (clickToggle (clickToggle w)).localStorage.getItem "theme" = _ at hst2
  change _ ↔ (clickToggle (clickToggle w)).isDarkMode = true at hcls2
  change _ = some (if (clickToggle (clickToggle w)).isDarkMode then "dark" else "light") at hst2
  rw [hflag] at hcls2 hst2
  exact ⟨hflag, hcls2.trans hcls.symm, hst2.trans hst.symm⟩

theorem clickToggle_twice_witness :
    ThemeSynced sampleWorld ∧
    (clickToggle (clickToggle sampleWorld)).isDarkMode = sampleWorld.isDarkMode ∧
    ("dark" ∈ (clickToggle (clickToggle sampleWorld)).rootClasses
      ↔ "dark" ∈ sampleWorld.rootClasses) ∧
    (clickToggle (clickToggle sampleWorld)).localStorage.getItem "theme"
      = sampleWorld.localStorage.getItem "theme" :=
  ⟨⟨by decide, rfl⟩, clickToggle_twice sampleWorld ⟨by decide, rfl⟩⟩

/-- C9: with `window` defined, for every content of `localStorage` and every
system dark-mode signal, the initial flag `isDarkMode` is true exactly when
the stored theme is `"dark"`, or no theme is stored and the signal is true. -/
theorem initIsDarkMode_iff (b : Browser) :
    initIsDarkMode (some b) = true ↔
      (b.localStorage.getItem "theme" = some "dark" ∨
        (b.localStorage.getItem "theme" = none ∧ b.prefersDark = true)) := by
  cases hst : b.localStorage.getItem "theme" <;> simp [initIsDarkMode, Storage.has, hst]

/-! ## Teardown -/

/-- C10, refuted as stated: `handleCopy` on a non-empty joke, then teardown.
The timer is still pending after teardown, with `copied` true; 2000 ms later
it fires on the unmounted component and `setCopied(false)` runs. -/
theorem unmount_keeps_timer :
    (unmount (handleCopy intSem jokeWorld)).mounted = false ∧
    (unmount (handleCopy intSem jokeWorld)).timers = [2000] ∧
    (unmount (handleCopy intSem jokeWorld)).copied = true ∧
    (advance 2000 (unmount (handleCopy intSem jokeWorld))).mounted = false ∧
    (advance 2000 (unmount (handleCopy intSem jokeWorld))).timers = [] ∧
    (advance 2000 (unmount (handleCopy intSem jokeWorld))).copied = false := by
  refine ⟨rfl, rfl, rfl, rfl, rfl, rfl⟩

/-- C10, amended: teardown cancels no timer.  After `handleCopy` on a
non-empty joke and then teardown, the timer of that call is still pending,
time passes as it would without teardown, and from 2000 ms on the callback
`setCopied(false)` has run on the unmounted component. -/
theorem unmount_cancels_nothing {ν : Type} (sem : NumSem ν) (w : World ν) (s : String)
    (hs : getField w.joke "text" = .str s) (hne : s ≠ "") :
    (unmount (handleCopy sem w)).timers = w.timers ++ [w.now + 2000] ∧
    (∀ dt, advance dt (unmount (handleCopy sem w)) = unmount (advance dt (handleCopy sem w))) ∧
    (∀ dt, 2000 ≤ dt →
      (advance dt (unmount (handleCopy sem w))).mounted = false ∧
      (w.now + 2000) ∉ (advance dt (unmount (handleCopy sem w))).timers ∧
      (advance dt (unmount (handleCopy sem w))).copied = false) := by
  refine ⟨?_, fun dt => advance_unmount dt _, fun dt hdt => ⟨?_, ?_, ?_⟩⟩
  · rw [handleCopy_of_text sem w s hs hne]
    rfl
  · rw [advance_mounted]
    rfl
  · rw [advance_timers]
    simp only [List.mem_filter, Bool.not_eq_true', decide_eq_false_iff_not, not_and, not_not]
    intro _
    rw [handleCopy_of_text sem w s hs hne]
    simp only [unmount]
    omega
  · apply advance_copied_of_due dt _ (w.now + 2000)
    · rw [handleCopy_of_text sem w s hs hne]
      simp [unmount]
    · simp only [unmount]
      rw [handleCopy_of_text sem w s hs hne]
      simp only
      omega

theorem unmount_cancels_nothing_witness :
    getField jokeWorld.joke "text" = .str "Knock knock." ∧ "Knock knock." ≠ "" ∧
    (unmount (handleCopy intSem jokeWorld)).timers = jokeWorld.timers ++ [jokeWorld.now + 2000] ∧
    (∀ dt, advance dt (unmount (handleCopy intSem jokeWorld))
      = unmount (advance dt (handleCopy intSem jokeWorld))) ∧
    (∀ dt, 2000 ≤ dt →
      (advance dt (unmount (handleCopy intSem jokeWorld))).mounted = false ∧
      (jokeWorld.now + 2000) ∉ (advance dt (unmount (handleCopy intSem jokeWorld))).timers ∧
      (advance dt (unmount (handleCopy intSem jokeWorld))).copied = false) :=
  ⟨rfl, by decide, unmount_cancels_nothing intSem jokeWorld "Knock knock." rfl (by decide)⟩

end JokeGenerator
